import Mathlib

/-! # kangol: the descriptor translator (`internal/task/task.go`)

A shallow embedding of `ReadConfig` and of the conversion functions it calls,
followed by the properties of the translation.

Conventions of the embedding

* A Go `string` is a Lean `String`; `int64` is `Int` (the code never does
  arithmetic on these numbers, it only copies them).
* A Go pointer `*T` is `Option T`: `nil` is `none`, and the helpers
  `aws.Int64`, `aws.Bool`, `aws.String` (which return the address of a copy of
  their argument) return `some`.
* A Go slice is a `List`; `append(xs, x)` is `xs ++ [x]`.
* A Go `map[K]V` is the list of its entries. For the `task` map the list is
  read in the order in which `range` visits the entries, so quantifying over
  all lists quantifies over all iteration orders. Indexing a
  `map[string]string` at an absent key yields the empty string.
* A run-time panic (index out of range) is the outer `none` of an `Option`.
* `ioutil.ReadFile` and `yaml.Unmarshal` are parameters of `ReadConfig`.
-/

namespace Kangol

/-! ## Go library functions used by the code -/

/-- Splitting a character list at every occurrence of a one-character
separator; the pieces between separators are kept, empty ones included. -/
def splitChars (sep : Char) : List Char → List (List Char)
  | [] => [[]]
  | c :: cs =>
    if c = sep then [] :: splitChars sep cs
    else
      match splitChars sep cs with
      | [] => [[c]]
      | s :: ss => (c :: s) :: ss

/-- Concatenation of the pieces with the separator between consecutive ones. -/
def joinChars (sep : List Char) : List (List Char) → List Char
  | [] => []
  | [a] => a
  | a :: b :: rest => a ++ sep ++ joinChars sep (b :: rest)

namespace strings

/-- Go `strings.Split(s, sep)` for a separator of one character: all
substrings of `s` between separators; a string without the separator, the
empty string included, gives the one-element slice holding the string. -/
def Split (s : String) (sep : Char) : List String :=
  (splitChars sep s.data).map String.mk

/-- Go `strings.Join(elems, sep)`. -/
def Join (elems : List String) (sep : String) : String :=
  String.mk (joinChars sep.data (elems.map String.data))

end strings

/-- Go `m[k]` on a `map[string]string`: the stored value, or the zero value
`""` when the key is absent. -/
def mapIndex (m : List (String × String)) (k : String) : String :=
  (m.lookup k).getD ""

/-- Go `aws.Int64(v)`: a pointer to a copy of `v`. -/
def aws.Int64 (v : Int) : Option Int := some v

/-- Go `aws.Bool(v)`. -/
def aws.Bool (v : Bool) : Option Bool := some v

/-- Go `aws.StringSlice(src)`: a pointer to every element. -/
def aws.StringSlice (src : List String) : List (Option String) :=
  src.map some

/-- Go `aws.String(v)`. -/
def aws.String (v : String) : Option String := some v

/-! ## The descriptor (`task.go`, lines 13-98) -/

/-- Go `ClusterService`. -/
structure ClusterService where
  Cluster : String
  Service : String
  Count : Int
  deriving DecidableEq, Repr

/-- Go `PortMapping`. -/
structure PortMapping where
  ContainerPort : Int
  HostPort : Int
  Protocol : String
  deriving DecidableEq, Repr

/-- Go `HealthCheck`. -/
structure HealthCheck where
  Command : List String
  Interval : Int
  Retries : Int
  StartPeriod : Int
  Timeout : Int
  deriving DecidableEq, Repr

/-- Go `Environment`. -/
structure Environment where
  Name : String
  Value : String
  deriving DecidableEq, Repr

/-- Go `MountPoint`. -/
structure MountPoint where
  ContainerPath : String
  ReadOnly : Bool
  SourceVolume : String
  deriving DecidableEq, Repr

/-- Go `VolumesFrom`. -/
structure VolumesFrom where
  ReadOnly : Bool
  SourceContainer : String
  deriving DecidableEq, Repr

/-- Go `TaskVolumeHost`. -/
structure TaskVolumeHost where
  SourcePath : String
  deriving DecidableEq, Repr

/-- Go `Volume`. -/
structure Volume where
  Host : TaskVolumeHost
  Name : String
  deriving DecidableEq, Repr

/-- Go `LogConfiguration`; `Options` is a `map[string]*string`. -/
structure LogConfiguration where
  LogDriver : String
  Options : List (String × Option String)
  deriving DecidableEq, Repr

/-- Go `ContainerDefinition`; `DockerLabels` is a `map[string]*string`. -/
structure ContainerDefinition where
  CPU : Int
  Essential : Bool
  Image : String
  Memory : Int
  PortMappings : List PortMapping
  HealthCheck : HealthCheck
  Command : List String
  EntryPoint : List String
  Environment : List Environment
  Link : List String
  MountPoints : List MountPoint
  VolumesFrom : List VolumesFrom
  Volumes : List Volume
  LogConfiguration : LogConfiguration
  DockerLabels : List (String × Option String)
  deriving DecidableEq, Repr

/-- Go `Deployment`; `Task` is the `map[string]ContainerDefinition`, listed in
the order in which `range` visits it. -/
structure Deployment where
  Cluster : String
  Service : String
  Count : Int
  Name : String
  NetworkMode : String
  Task : List (String × ContainerDefinition)
  deriving DecidableEq, Repr

/-- The zero value `Deployment{}`. -/
def Deployment.zero : Deployment :=
  { Cluster := "", Service := "", Count := 0, Name := "", NetworkMode := "", Task := [] }

/-! ## The request types of the ECS client library

Only the fields that `task.go` assigns are kept; every field is a pointer, a
slice of pointers or a map, as in the library. -/

namespace ecs

/-- The library type `ecs.PortMapping`. -/
structure PortMapping where
  ContainerPort : Option Int
  HostPort : Option Int
  Protocol : Option String
  deriving DecidableEq, Repr

/-- The library type `ecs.HealthCheck`. -/
structure HealthCheck where
  Command : List (Option String)
  Interval : Option Int
  Retries : Option Int
  StartPeriod : Option Int
  Timeout : Option Int
  deriving DecidableEq, Repr

/-- The library type `ecs.KeyValuePair`. -/
structure KeyValuePair where
  Name : Option String
  Value : Option String
  deriving DecidableEq, Repr

/-- The library type `ecs.MountPoint`. -/
structure MountPoint where
  ContainerPath : Option String
  ReadOnly : Option Bool
  SourceVolume : Option String
  deriving DecidableEq, Repr

/-- The library type `ecs.VolumeFrom`. -/
structure VolumeFrom where
  ReadOnly : Option Bool
  SourceContainer : Option String
  deriving DecidableEq, Repr

/-- The library type `ecs.HostVolumeProperties`. -/
structure HostVolumeProperties where
  SourcePath : Option String
  deriving DecidableEq, Repr

/-- The library type `ecs.Volume`. -/
structure Volume where
  Host : Option HostVolumeProperties
  Name : Option String
  deriving DecidableEq, Repr

/-- The library type `ecs.LogConfiguration`. -/
structure LogConfiguration where
  LogDriver : Option String
  Options : List (String × Option String)
  deriving DecidableEq, Repr

/-- The library type `ecs.ContainerDefinition`. -/
structure ContainerDefinition where
  Cpu : Option Int
  Essential : Option Bool
  Image : Option String
  Memory : Option Int
  Name : Option String
  PortMappings : List (Option PortMapping)
  Command : List (Option String)
  EntryPoint : List (Option String)
  Environment : List (Option KeyValuePair)
  Links : List (Option String)
  MountPoints : List (Option MountPoint)
  VolumesFrom : List (Option VolumeFrom)
  DockerLabels : List (String × Option String)
  HealthCheck : Option HealthCheck
  LogConfiguration : Option LogConfiguration
  deriving DecidableEq, Repr

/-- The library type `ecs.RegisterTaskDefinitionInput`. -/
structure RegisterTaskDefinitionInput where
  ContainerDefinitions : List (Option ContainerDefinition)
  Family : Option String
  Volumes : List (Option Volume)
  NetworkMode : Option String
  deriving DecidableEq, Repr

end ecs

/-! ## The conversion functions (`task.go`, lines 162-274) -/

/-- Go `addImageTag`: the last element of the split image is overwritten with
the tag. The write `imagesArray[len(imagesArray)-1] = tag` panics when the
slice is empty, which is the result `none`. -/
def addImageTag (image tag : String) : Option String :=
  let imagesArray := strings.Split image ':'
  if imagesArray.length = 0 then none
  else some (strings.Join (imagesArray.set (imagesArray.length - 1) tag) ":")

/-- Go `getPortMapping`. -/
def getPortMapping (con : ContainerDefinition) : List (Option ecs.PortMapping) :=
  con.PortMappings.foldl
    (fun ports v =>
      ports ++ [some
        { ContainerPort := aws.Int64 v.ContainerPort
          HostPort := aws.Int64 v.HostPort
          Protocol := aws.String v.Protocol }])
    []

/-- Go `getHealthCheck`. -/
def getHealthCheck (con : ContainerDefinition) : Option ecs.HealthCheck :=
  some
    { Command := aws.StringSlice con.HealthCheck.Command
      Interval := aws.Int64 con.HealthCheck.Interval
      Retries := aws.Int64 con.HealthCheck.Retries
      StartPeriod := aws.Int64 con.HealthCheck.StartPeriod
      Timeout := aws.Int64 con.HealthCheck.Timeout }

/-- Go `getCommands`. -/
def getCommands (con : ContainerDefinition) : List (Option String) :=
  con.Command.foldl (fun commands v => commands ++ [aws.String v]) []

/-- Go `getEntryPoints`. -/
def getEntryPoints (con : ContainerDefinition) : List (Option String) :=
  con.EntryPoint.foldl (fun entrypoints v => entrypoints ++ [aws.String v]) []

/-- Go `getEnvironments`. -/
def getEnvironments (con : ContainerDefinition) : List (Option ecs.KeyValuePair) :=
  con.Environment.foldl
    (fun environments v =>
      environments ++ [some { Name := aws.String v.Name, Value := aws.String v.Value }])
    []

/-- Go `getLinks`. -/
def getLinks (con : ContainerDefinition) : List (Option String) :=
  con.Link.foldl (fun links v => links ++ [aws.String v]) []

/-- Go `getMountPoints`. -/
def getMountPoints (con : ContainerDefinition) : List (Option ecs.MountPoint) :=
  con.MountPoints.foldl
    (fun mountPoints v =>
      mountPoints ++ [some
        { ContainerPath := aws.String v.ContainerPath
          ReadOnly := aws.Bool v.ReadOnly
          SourceVolume := aws.String v.SourceVolume }])
    []

/-- Go `getVolumesFrom`. -/
def getVolumesFrom (con : ContainerDefinition) : List (Option ecs.VolumeFrom) :=
  con.VolumesFrom.foldl
    (fun volumesFroms v =>
      volumesFroms ++ [some
        { ReadOnly := aws.Bool v.ReadOnly
          SourceContainer := aws.String v.SourceContainer }])
    []

/-- Go `getVolumes`. -/
def getVolumes (con : ContainerDefinition) : List (Option ecs.Volume) :=
  con.Volumes.foldl
    (fun volumes v =>
      volumes ++ [some
        { Host := some { SourcePath := aws.String v.Host.SourcePath }
          Name := aws.String v.Name }])
    []

/-- Go `getLogConfiguration`. -/
def getLogConfiguration (con : ContainerDefinition) : Option ecs.LogConfiguration :=
  let logConf := con.LogConfiguration
  some
    { LogDriver := aws.String con.LogConfiguration.LogDriver
      Options := logConf.Options }

/-! ## `ReadConfig` (`task.go`, lines 101-160) -/

/-- One pass through the body of the `for name, con := range containers.Task`
loop (lines 116-147), acting on the pair `(definitions, volumes)`. -/
def ReadConfig.body (tags : List (String × String))
    (acc : List (Option ecs.ContainerDefinition) × List (Option ecs.Volume))
    (entry : String × ContainerDefinition) :
    Option (List (Option ecs.ContainerDefinition) × List (Option ecs.Volume)) := do
  let name := entry.1
  let con ←
    if mapIndex tags name ≠ "" then
      (addImageTag entry.2.Image (mapIndex tags name)).map
        (fun image => { entry.2 with Image := image })
    else pure entry.2
  let d : ecs.ContainerDefinition :=
    { Cpu := aws.Int64 con.CPU
      Essential := aws.Bool con.Essential
      Image := aws.String con.Image
      Memory := aws.Int64 con.Memory
      Name := aws.String name
      PortMappings := getPortMapping con
      Command := getCommands con
      EntryPoint := getEntryPoints con
      Environment := getEnvironments con
      Links := getLinks con
      MountPoints := getMountPoints con
      VolumesFrom := getVolumesFrom con
      DockerLabels := con.DockerLabels
      HealthCheck := none
      LogConfiguration := none }
  let d :=
    if con.HealthCheck.Command.length ≠ 0 then { d with HealthCheck := getHealthCheck con }
    else d
  let d :=
    if con.LogConfiguration.LogDriver ≠ "" then
      { d with LogConfiguration := getLogConfiguration con }
    else d
  pure (acc.1 ++ [some d], getVolumes con)

/-- Go `ReadConfig`. `ReadFile` stands for `ioutil.ReadFile` and `Unmarshal`
for `yaml.Unmarshal` applied to the zero `Deployment`: it gives the value left
in `containers` and the decode error (`none` for `nil`). The result is the
triple the function returns, or `none` when the function panics. -/
def ReadConfig (ReadFile : String → Except String String)
    (Unmarshal : String → Deployment × Option String)
    (conf : String) (tags : List (String × String)) :
    Option (ClusterService × Option ecs.RegisterTaskDefinitionInput × Option String) :=
  match ReadFile conf with
  | .error readErr => some ({ Cluster := "", Service := "", Count := 0 }, none, some readErr)
  | .ok data =>
    let (containers, err) := Unmarshal data
    let clusterService : ClusterService :=
      { Cluster := containers.Cluster, Service := containers.Service, Count := containers.Count }
    match containers.Task.foldlM (ReadConfig.body tags) ([], []) with
    | none => none
    | some (definitions, volumes) =>
      let taskDefinitions : ecs.RegisterTaskDefinitionInput :=
        { ContainerDefinitions := definitions
          Family := aws.String containers.Name
          Volumes := volumes
          NetworkMode := none }
      let taskDefinitions :=
        if containers.NetworkMode ≠ "" then
          { taskDefinitions with NetworkMode := aws.String containers.NetworkMode }
        else taskDefinitions
      some (clusterService, some taskDefinitions, err)

/-! ## A sample descriptor -/

/-- A container with every optional block filled in. -/
def sampleWeb : ContainerDefinition :=
  { CPU := 256
    Essential := true
    Image := "repo/image:old"
    Memory := 512
    PortMappings := [{ ContainerPort := 80, HostPort := 8080, Protocol := "tcp" }]
    HealthCheck :=
      { Command := ["CMD-SHELL", "curl -f http://localhost/"]
        Interval := 30, Retries := 3, StartPeriod := 0, Timeout := 5 }
    Command := ["serve", "--port=80"]
    EntryPoint := ["/bin/app"]
    Environment := [{ Name := "STAGE", Value := "prod" }, { Name := "DEBUG", Value := "" }]
    Link := ["db"]
    MountPoints := [{ ContainerPath := "/data", ReadOnly := false, SourceVolume := "data" }]
    VolumesFrom := [{ ReadOnly := true, SourceContainer := "db" }]
    Volumes := [{ Host := { SourcePath := "/srv/data" }, Name := "data" }]
    LogConfiguration := { LogDriver := "awslogs", Options := [("awslogs-group", some "web")] }
    DockerLabels := [("team", some "infra")] }

/-- A container without commands in its health check, without log driver and
without volumes; the other health-check fields are set. -/
def sampleDb : ContainerDefinition :=
  { CPU := 128
    Essential := false
    Image := "postgres"
    Memory := 1024
    PortMappings := []
    HealthCheck := { Command := [], Interval := 10, Retries := 2, StartPeriod := 1, Timeout := 4 }
    Command := []
    EntryPoint := []
    Environment := []
    Link := []
    MountPoints := []
    VolumesFrom := []
    Volumes := []
    LogConfiguration := { LogDriver := "", Options := [("ignored", none)] }
    DockerLabels := [] }

/-- A descriptor whose task map is visited in the order `web`, `db`. -/
def sampleDeployment : Deployment :=
  { Cluster := "prod", Service := "api", Count := 3, Name := "api-task"
    NetworkMode := "bridge", Task := [("web", sampleWeb), ("db", sampleDb)] }

/-- A file system holding one readable file. -/
def sampleReadFile (conf : String) : Except String String :=
  if conf = "kangol.yml" then .ok "cluster: prod"
  else .error "open: no such file or directory"

/-- A decoder that succeeds with the sample descriptor. -/
def sampleUnmarshal (_data : String) : Deployment × Option String :=
  (sampleDeployment, none)

/-- A decoder that fails and leaves the zero descriptor behind. -/
def sampleFailingUnmarshal (_data : String) : Deployment × Option String :=
  (Deployment.zero, some "yaml: did not find expected key")

/-- A decoder that fails after it has filled in part of the descriptor. -/
def samplePartialUnmarshal (_data : String) : Deployment × Option String :=
  ({ sampleDeployment with Count := 0, NetworkMode := "" },
    some "yaml: unmarshal errors: cannot unmarshal !!str into int64")

/-- The sample descriptor with its task map visited in the order `db`, `web`. -/
def sampleDeploymentSwapped : Deployment :=
  { sampleDeployment with Task := [("db", sampleDb), ("web", sampleWeb)] }

/-- A decoder that succeeds with the swapped sample descriptor. -/
def sampleUnmarshalSwapped (_data : String) : Deployment × Option String :=
  (sampleDeploymentSwapped, none)

/-- The container of the round-trip scenario: only image, cpu, memory and the
essential flag are given, everything else has its zero value. -/
def roundTripWeb : ContainerDefinition :=
  { CPU := 256
    Essential := true
    Image := "org/app:1.0"
    Memory := 512
    PortMappings := []
    HealthCheck := { Command := [], Interval := 0, Retries := 0, StartPeriod := 0, Timeout := 0 }
    Command := []
    EntryPoint := []
    Environment := []
    Link := []
    MountPoints := []
    VolumesFrom := []
    Volumes := []
    LogConfiguration := { LogDriver := "", Options := [] }
    DockerLabels := [] }

/-- The descriptor of the round-trip scenario. -/
def roundTripDeployment : Deployment :=
  { Cluster := "prod", Service := "api", Count := 3, Name := "", NetworkMode := ""
    Task := [("web", roundTripWeb)] }

/-- A decoder that succeeds with the round-trip descriptor. -/
def roundTripUnmarshal (_data : String) : Deployment × Option String :=
  (roundTripDeployment, none)

/-! ## Closed forms used in the proofs -/

/-- The image of an output entry: the pieces of the input image but the last,
then the tag, when the tag stored for the name is not empty. -/
def overrideImage (tags : List (String × String)) (e : String × ContainerDefinition) :
    String :=
  if mapIndex tags e.1 ≠ "" then
    String.mk (joinChars [':']
      ((splitChars ':' e.2.Image.data).dropLast ++ [(mapIndex tags e.1).data]))
  else e.2.Image

/-- The output entry that one pass of the loop appends, in closed form. -/
def convert (tags : List (String × String)) (e : String × ContainerDefinition) :
    ecs.ContainerDefinition :=
  { Cpu := some e.2.CPU
    Essential := some e.2.Essential
    Image := some (overrideImage tags e)
    Memory := some e.2.Memory
    Name := some e.1
    PortMappings := e.2.PortMappings.map fun v =>
      some { ContainerPort := some v.ContainerPort, HostPort := some v.HostPort,
             Protocol := some v.Protocol }
    Command := e.2.Command.map some
    EntryPoint := e.2.EntryPoint.map some
    Environment := e.2.Environment.map fun v =>
      some { Name := some v.Name, Value := some v.Value }
    Links := e.2.Link.map some
    MountPoints := e.2.MountPoints.map fun v =>
      some { ContainerPath := some v.ContainerPath, ReadOnly := some v.ReadOnly,
             SourceVolume := some v.SourceVolume }
    VolumesFrom := e.2.VolumesFrom.map fun v =>
      some { ReadOnly := some v.ReadOnly, SourceContainer := some v.SourceContainer }
    DockerLabels := e.2.DockerLabels
    HealthCheck :=
      if e.2.HealthCheck.Command = [] then none
      else some
        { Command := e.2.HealthCheck.Command.map some
          Interval := some e.2.HealthCheck.Interval
          Retries := some e.2.HealthCheck.Retries
          StartPeriod := some e.2.HealthCheck.StartPeriod
          Timeout := some e.2.HealthCheck.Timeout }
    LogConfiguration :=
      if e.2.LogConfiguration.LogDriver = "" then none
      else some
        { LogDriver := some e.2.LogConfiguration.LogDriver
          Options := e.2.LogConfiguration.Options } }

/-- The volume list a container is translated to, in closed form. -/
def convertVolumes (c : ContainerDefinition) : List (Option ecs.Volume) :=
  c.Volumes.map fun v =>
    some { Host := some { SourcePath := some v.Host.SourcePath }, Name := some v.Name }

/-- The value of `volumes` after the loop has run over `task`, starting from
`init`: overwritten by every pass, so the last pass decides. -/
def lastVolumes (init : List (Option ecs.Volume)) (task : List (String × ContainerDefinition)) :
    List (Option ecs.Volume) :=
  match task.getLast? with
  | none => init
  | some e => convertVolumes e.2

/-! ## Lemmas on the library functions -/

theorem splitChars_ne_nil (sep : Char) (s : List Char) : splitChars sep s ≠ [] := by
  cases s with
  | nil => simp [splitChars]
  | cons c cs =>
    unfold splitChars
    split
    · simp
    · split <;> simp

theorem splitChars_of_not_mem (sep : Char) (s : List Char) (h : sep ∉ s) :
    splitChars sep s = [s] := by
  induction s with
  | nil => rfl
  | cons c cs ih =>
    have hc : ¬ c = sep := fun e => h (by simp [e])
    have hcs : sep ∉ cs := fun e => h (by simp [e])
    simp [splitChars, hc, ih hcs]

theorem splitChars_cons_of_ne {sep c : Char} {cs a : List Char} {as : List (List Char)}
    (hc : ¬ c = sep) (hsp : splitChars sep cs = a :: as) :
    splitChars sep (c :: cs) = (c :: a) :: as := by
  simp [splitChars, hc, hsp]

theorem splitChars_append_sep (sep : Char) (p s : List Char) :
    splitChars sep (p ++ sep :: s) = splitChars sep p ++ splitChars sep s := by
  induction p with
  | nil => simp [splitChars]
  | cons c cs ih =>
    by_cases hc : c = sep
    · simp [splitChars, hc, ih]
    · cases hsp : splitChars sep cs with
      | nil => exact absurd hsp (splitChars_ne_nil sep cs)
      | cons a as =>
        rw [hsp] at ih
        rw [List.cons_append, splitChars_cons_of_ne hc ih, splitChars_cons_of_ne hc hsp]
        rfl

theorem joinChars_append (sep : List Char) (xs ys : List (List Char))
    (hx : xs ≠ []) (hy : ys ≠ []) :
    joinChars sep (xs ++ ys) = joinChars sep xs ++ sep ++ joinChars sep ys := by
  induction xs with
  | nil => exact absurd rfl hx
  | cons a as ih =>
    cases as with
    | nil =>
      cases ys with
      | nil => exact absurd rfl hy
      | cons b bs => simp [joinChars]
    | cons a2 as2 =>
      have := ih (by simp)
      simp only [List.cons_append] at this ⊢
      simp [joinChars, this]

theorem joinChars_splitChars (sep : Char) (s : List Char) :
    joinChars [sep] (splitChars sep s) = s := by
  induction s with
  | nil => rfl
  | cons c cs ih =>
    by_cases hc : c = sep
    · have hne := splitChars_ne_nil sep cs
      cases hsp : splitChars sep cs with
      | nil => exact absurd hsp hne
      | cons a as =>
        rw [hsp] at ih
        simp [splitChars, hc, hsp, joinChars, ih]
    · cases hsp : splitChars sep cs with
      | nil => exact absurd hsp (splitChars_ne_nil sep cs)
      | cons a as =>
        rw [hsp] at ih
        cases as with
        | nil =>
          simp [joinChars] at ih
          simp [splitChars, hc, hsp, joinChars, ih]
        | cons b bs =>
          simp [joinChars] at ih
          simp [splitChars, hc, hsp, joinChars, ih]

theorem set_last_eq {α : Type} (xs : List α) (hne : xs ≠ []) (t : α) :
    xs.set (xs.length - 1) t = xs.dropLast ++ [t] := by
  induction xs with
  | nil => exact absurd rfl hne
  | cons a as ih =>
    cases as with
    | nil => simp
    | cons b bs =>
      have := ih (by simp)
      simp at this ⊢
      exact this

theorem foldl_append_singleton {α β : Type} (f : α → β) (l : List α) (init : List β) :
    l.foldl (fun acc v => acc ++ [f v]) init = init ++ l.map f := by
  induction l generalizing init with
  | nil => simp
  | cons a as ih => simp [ih]

/-- The value `addImageTag` computes: the pieces of the image but the last,
then the tag, joined with colons. -/
theorem addImageTag_eq (image tag : String) :
    addImageTag image tag
      = some (String.mk (joinChars [':']
          ((splitChars ':' image.data).dropLast ++ [tag.data]))) := by
  have hne := splitChars_ne_nil ':' image.data
  unfold addImageTag strings.Split strings.Join
  simp only [List.length_map, List.length_eq_zero, hne, if_false]
  have hlen : (splitChars ':' image.data).length
      = (List.map String.mk (splitChars ':' image.data)).length := by simp
  rw [hlen, set_last_eq _ (by simpa using hne)]
  simp [List.map_dropLast, Function.comp_def]

/-! ## The loop of `ReadConfig` in closed form -/

theorem getVolumes_eq (c : ContainerDefinition) : getVolumes c = convertVolumes c := by
  simp [getVolumes, convertVolumes, foldl_append_singleton, aws.String]

theorem body_eq (tags : List (String × String))
    (acc : List (Option ecs.ContainerDefinition) × List (Option ecs.Volume))
    (e : String × ContainerDefinition) :
    ReadConfig.body tags acc e = some (acc.1 ++ [some (convert tags e)], convertVolumes e.2) := by
  unfold ReadConfig.body
  by_cases ht : mapIndex tags e.1 = ""
  · simp [ht, convert, overrideImage, getPortMapping, getCommands, getEntryPoints, getEnvironments, getLinks, getMountPoints, getVolumesFrom, getHealthCheck, getLogConfiguration, getVolumes_eq, convertVolumes, foldl_append_singleton, aws.String, aws.Int64, aws.Bool, aws.StringSlice]
    all_goals (split_ifs <;> simp_all)
  · simp [ht, addImageTag_eq, convert, overrideImage, getPortMapping, getCommands, getEntryPoints, getEnvironments, getLinks, getMountPoints, getVolumesFrom, getHealthCheck, getLogConfiguration, getVolumes_eq, convertVolumes, foldl_append_singleton, aws.String, aws.Int64, aws.Bool, aws.StringSlice]
    all_goals (split_ifs <;> simp_all)

theorem lastVolumes_cons (init : List (Option ecs.Volume)) (e : String × ContainerDefinition)
    (task : List (String × ContainerDefinition)) :
    lastVolumes init (e :: task) = lastVolumes (convertVolumes e.2) task := by
  cases task with
  | nil => simp [lastVolumes]
  | cons a as =>
    have h : (a :: as).getLast? = some ((a :: as).getLast (by simp)) :=
      List.getLast?_eq_getLast _ _
    simp only [lastVolumes, List.getLast?_cons_cons, h]

theorem loop_eq (tags : List (String × String)) (task : List (String × ContainerDefinition))
    (acc : List (Option ecs.ContainerDefinition) × List (Option ecs.Volume)) :
    task.foldlM (ReadConfig.body tags) acc
      = some (acc.1 ++ task.map (fun e => some (convert tags e)), lastVolumes acc.2 task) := by
  induction task generalizing acc with
  | nil => simp [lastVolumes]
  | cons e es ih =>
    rw [List.foldlM_cons, body_eq]
    simp only [Option.bind_eq_bind, Option.some_bind]
    rw [ih, lastVolumes_cons]
    simp

/-- The result of `ReadConfig` when the file can be read, in closed form. -/
theorem ReadConfig_ok (ReadFile : String → Except String String)
    (Unmarshal : String → Deployment × Option String) (conf : String)
    (tags : List (String × String)) (data : String) (hread : ReadFile conf = .ok data) :
    ReadConfig ReadFile Unmarshal conf tags
      = some
          ({ Cluster := (Unmarshal data).1.Cluster, Service := (Unmarshal data).1.Service,
             Count := (Unmarshal data).1.Count },
           some
             { ContainerDefinitions := (Unmarshal data).1.Task.map fun e => some (convert tags e)
               Family := some (Unmarshal data).1.Name
               Volumes := lastVolumes [] (Unmarshal data).1.Task
               NetworkMode :=
                 if (Unmarshal data).1.NetworkMode = "" then none
                 else some (Unmarshal data).1.NetworkMode },
           (Unmarshal data).2) := by
  unfold ReadConfig
  rw [hread]
  simp only [loop_eq]
  split_ifs <;> simp_all [aws.String]

/-! ## The translation: containers and images -/

/-- The closed form of `ReadConfig_ok` with the decoder's result named. -/
theorem ReadConfig_decoded (ReadFile : String → Except String String)
    (Unmarshal : String → Deployment × Option String) (conf : String)
    (tags : List (String × String)) (data : String) (d : Deployment) (err : Option String)
    (hread : ReadFile conf = .ok data) (hdec : Unmarshal data = (d, err)) :
    ReadConfig ReadFile Unmarshal conf tags
      = some
          ({ Cluster := d.Cluster, Service := d.Service, Count := d.Count },
           some
             { ContainerDefinitions := d.Task.map fun e => some (convert tags e)
               Family := some d.Name
               Volumes := lastVolumes [] d.Task
               NetworkMode := if d.NetworkMode = "" then none else some d.NetworkMode },
           err) := by
  rw [ReadConfig_ok ReadFile Unmarshal conf tags data hread, hdec]

theorem join_split_dropLast (image tag : String) :
    strings.Join ((strings.Split image ':').dropLast ++ [tag]) ":"
      = String.mk (joinChars [':'] ((splitChars ':' image.data).dropLast ++ [tag.data])) := by
  simp [strings.Join, strings.Split, List.map_dropLast, Function.comp_def]

theorem overrideImage_eq (tags : List (String × String)) (e : String × ContainerDefinition) :
    overrideImage tags e
      = if mapIndex tags e.1 ≠ "" then
          strings.Join ((strings.Split e.2.Image ':').dropLast ++ [mapIndex tags e.1]) ":"
        else e.2.Image := by
  unfold overrideImage
  split_ifs
  · rw [join_split_dropLast]
  · rfl

/-- C1. When the file is read and decoded to a descriptor whose task map has
N containers, the request returned by `ReadConfig` has exactly N container
entries, none of them nil, and every input container `(name, c)` has an entry
with that name, with the cpu, memory and essential flag of `c`, and with the
image of `c` after the tag override: the image split at the colons with its
last piece replaced by the tag when a non-empty tag is stored for the name, the
image of `c` itself otherwise. -/
theorem readConfig_containers (ReadFile : String → Except String String)
    (Unmarshal : String → Deployment × Option String) (conf : String)
    (tags : List (String × String)) (data : String) (d : Deployment) (err : Option String)
    (hread : ReadFile conf = .ok data) (hdec : Unmarshal data = (d, err)) :
    ∃ cs req, ReadConfig ReadFile Unmarshal conf tags = some (cs, some req, err) ∧
      req.ContainerDefinitions.length = d.Task.length ∧
      none ∉ req.ContainerDefinitions ∧
      ∀ name c, (name, c) ∈ d.Task →
        ∃ e, some e ∈ req.ContainerDefinitions ∧
          e.Name = some name ∧ e.Cpu = some c.CPU ∧ e.Memory = some c.Memory ∧
          e.Essential = some c.Essential ∧
          e.Image = some
            (if mapIndex tags name ≠ "" then
              strings.Join ((strings.Split c.Image ':').dropLast ++ [mapIndex tags name]) ":"
             else c.Image) := by
  refine ⟨_, _, ReadConfig_decoded ReadFile Unmarshal conf tags data d err hread hdec, ?_, ?_, ?_⟩
  · simp
  · simp
  · intro name c hmem
    refine ⟨convert tags (name, c), ?_, rfl, rfl, rfl, rfl, ?_⟩
    · exact List.mem_map.2 ⟨(name, c), hmem, rfl⟩
    · show some (overrideImage tags (name, c)) = _
      rw [overrideImage_eq]

/-- Witness of C1 on the sample descriptor with the override `web -> new`. -/
theorem readConfig_containers_witness :
    sampleReadFile "kangol.yml" = .ok "cluster: prod" ∧
    sampleUnmarshal "cluster: prod" = (sampleDeployment, none) ∧
    ∃ cs req, ReadConfig sampleReadFile sampleUnmarshal "kangol.yml" [("web", "new")]
        = some (cs, some req, none) ∧
      req.ContainerDefinitions.length = 2 ∧
      ∃ e, some e ∈ req.ContainerDefinitions ∧ e.Name = some "web" ∧ e.Cpu = some 256 ∧
        e.Image = some "repo/image:new" := by
  refine ⟨rfl, rfl, ?_⟩
  obtain ⟨cs, req, h, hlen, -, hall⟩ :=
    readConfig_containers sampleReadFile sampleUnmarshal "kangol.yml" [("web", "new")]
      "cluster: prod" sampleDeployment none rfl rfl
  obtain ⟨e, he, hn, hc, -, -, hi⟩ := hall "web" sampleWeb (by simp [sampleDeployment])
  exact ⟨cs, req, h, hlen, e, he, hn, hc, by rw [hi]; decide⟩

/-- C2. An image `p:s` whose last piece `s` has no colon is rewritten to `p:t`:
only the text after the last colon is replaced. -/
theorem addImageTag_replaces_after_last_colon (p s t : String) (hs : ':' ∉ s.data) :
    addImageTag (p ++ ":" ++ s) t = some (p ++ ":" ++ t) := by
  rw [addImageTag_eq]
  have hsplit : splitChars ':' (p ++ ":" ++ s).data
      = splitChars ':' p.data ++ [s.data] := by
    have : (p ++ ":" ++ s).data = p.data ++ ':' :: s.data := by
      simp [String.data_append]
    rw [this, splitChars_append_sep, splitChars_of_not_mem _ _ hs]
  rw [hsplit, List.dropLast_concat,
    joinChars_append _ _ _ (splitChars_ne_nil _ _) (by simp), joinChars_splitChars]
  apply congrArg some
  apply String.ext
  simp [String.data_append, joinChars]

/-- Witness of C2: `repo/image:old` with the tag `new` gives `repo/image:new`. -/
theorem addImageTag_replaces_after_last_colon_witness :
    ':' ∉ "old".data ∧ addImageTag "repo/image:old" "new" = some "repo/image:new" :=
  ⟨by decide, addImageTag_replaces_after_last_colon "repo/image" "old" "new" (by decide)⟩

/-- C3. An image without a colon, the empty image included, is replaced by
the tag as a whole; the result is not the image followed by `:t`. -/
theorem addImageTag_without_colon (image t : String) (h : ':' ∉ image.data) :
    addImageTag image t = some t ∧ addImageTag image t ≠ some (image ++ ":" ++ t) := by
  have h1 : addImageTag image t = some t := by
    rw [addImageTag_eq, splitChars_of_not_mem _ _ h]
    simp [joinChars]
  refine ⟨h1, ?_⟩
  rw [h1]
  intro h2
  have h3 := congrArg (fun o => (o.map String.length).getD 0) h2
  simp [String.length_append] at h3
  have : ":".length = 1 := rfl
  omega

/-- Witness of C3: `repo/image` with the tag `new` gives `new`. -/
theorem addImageTag_without_colon_witness :
    ':' ∉ "repo/image".data ∧ addImageTag "repo/image" "new" = some "new" ∧
      addImageTag "" "new" = some "new" :=
  ⟨by decide, (addImageTag_without_colon "repo/image" "new" (by decide)).1, by decide⟩

/-! ## Tag overrides, health checks and log configurations -/

theorem mapIndex_of_lookup {tags : List (String × String)} {name t : String}
    (h : tags.lookup name = some t) : mapIndex tags name = t := by
  simp [mapIndex, h]

/-- The entry the loop appends for the `i`-th visited container is the `i`-th
entry of the output list. -/
theorem entry_at (tags : List (String × String)) (task : List (String × ContainerDefinition))
    (i : Nat) (name : String) (c : ContainerDefinition) (h : task[i]? = some (name, c)) :
    (task.map fun e => some (convert tags e))[i]? = some (some (convert tags (name, c))) := by
  simp [List.getElem?_map, h]

/-- C4 as stated fails: the override map has the entry `web -> ""`, the input
image is `repo/image:old`, replacing its last piece by the tag would give
`repo/image:`, and the output image is still `repo/image:old`. -/
theorem readConfig_empty_tag_entry_counterexample :
    List.lookup "web" [("web", "")] = some "" ∧
    sampleDeployment.Task[0]? = some ("web", sampleWeb) ∧
    sampleWeb.Image = "repo/image:old" ∧
    strings.Join ((strings.Split "repo/image:old" ':').dropLast ++ [""]) ":" = "repo/image:" ∧
    ∃ cs req, ReadConfig sampleReadFile sampleUnmarshal "kangol.yml" [("web", "")]
        = some (cs, some req, none) ∧
      req.ContainerDefinitions.map (Option.map fun e => (e.Name, e.Image))
        = [some (some "web", some "repo/image:old"), some (some "db", some "postgres")] :=
  ⟨by decide, by decide, by decide, by decide, _, _, rfl, by decide⟩

/-- C4, amended. When the override map has an entry `t` for the name of a
container, the output entry of that name has the input image with its last
colon-delimited piece replaced by `t` if `t` is not empty, and the input image
unchanged if `t` is the empty string. -/
theorem readConfig_override_entry (ReadFile : String → Except String String)
    (Unmarshal : String → Deployment × Option String) (conf : String)
    (tags : List (String × String)) (data : String) (d : Deployment) (err : Option String)
    (name t : String) (c : ContainerDefinition)
    (hread : ReadFile conf = .ok data) (hdec : Unmarshal data = (d, err))
    (hmem : (name, c) ∈ d.Task) (hentry : tags.lookup name = some t) :
    ∃ cs req e, ReadConfig ReadFile Unmarshal conf tags = some (cs, some req, err) ∧
      some e ∈ req.ContainerDefinitions ∧ e.Name = some name ∧
      (t ≠ "" →
        e.Image = some (strings.Join ((strings.Split c.Image ':').dropLast ++ [t]) ":")) ∧
      (t = "" → e.Image = some c.Image) := by
  refine ⟨_, _, convert tags (name, c),
    ReadConfig_decoded ReadFile Unmarshal conf tags data d err hread hdec, ?_, rfl, ?_, ?_⟩
  · exact List.mem_map.2 ⟨(name, c), hmem, rfl⟩
  · intro ht
    show some (overrideImage tags (name, c)) = _
    rw [overrideImage_eq]
    simp [mapIndex_of_lookup hentry, ht]
  · intro ht
    show some (overrideImage tags (name, c)) = _
    rw [overrideImage_eq]
    simp [mapIndex_of_lookup hentry, ht]

/-- Witness of the amended C4: the override `web -> new` on the sample. -/
theorem readConfig_override_entry_witness :
    sampleReadFile "kangol.yml" = .ok "cluster: prod" ∧
    sampleUnmarshal "cluster: prod" = (sampleDeployment, none) ∧
    ("web", sampleWeb) ∈ sampleDeployment.Task ∧
    List.lookup "web" [("web", "new")] = some "new" ∧
    ∃ cs req e, ReadConfig sampleReadFile sampleUnmarshal "kangol.yml" [("web", "new")]
        = some (cs, some req, none) ∧
      some e ∈ req.ContainerDefinitions ∧ e.Name = some "web" ∧
      e.Image = some "repo/image:new" := by
  have hmem : ("web", sampleWeb) ∈ sampleDeployment.Task := by simp [sampleDeployment]
  refine ⟨rfl, rfl, hmem, by decide, ?_⟩
  obtain ⟨cs, req, e, h, he, hn, hi, -⟩ :=
    readConfig_override_entry sampleReadFile sampleUnmarshal "kangol.yml" [("web", "new")]
      "cluster: prod" sampleDeployment none "web" "new" sampleWeb rfl rfl hmem (by decide)
  exact ⟨cs, req, e, h, he, hn, by rw [hi (by decide)]; decide⟩

/-- C5. The output entry of the `i`-th visited container has a health-check
block exactly when the command list of the input health check is not empty;
with an empty list the block is absent whatever the interval, retries, start
period and timeout are. -/
theorem readConfig_healthCheck (ReadFile : String → Except String String)
    (Unmarshal : String → Deployment × Option String) (conf : String)
    (tags : List (String × String)) (data : String) (d : Deployment) (err : Option String)
    (i : Nat) (name : String) (c : ContainerDefinition)
    (hread : ReadFile conf = .ok data) (hdec : Unmarshal data = (d, err))
    (hi : d.Task[i]? = some (name, c)) :
    ∃ cs req e, ReadConfig ReadFile Unmarshal conf tags = some (cs, some req, err) ∧
      req.ContainerDefinitions[i]? = some (some e) ∧ e.Name = some name ∧
      (e.HealthCheck ≠ none ↔ c.HealthCheck.Command ≠ []) ∧
      (c.HealthCheck.Command = [] → e.HealthCheck = none) := by
  refine ⟨_, _, convert tags (name, c),
    ReadConfig_decoded ReadFile Unmarshal conf tags data d err hread hdec,
    entry_at tags d.Task i name c hi, rfl, ?_, ?_⟩
  · by_cases h : c.HealthCheck.Command = [] <;> simp [convert, h]
  · intro h
    simp [convert, h]

/-- Witness of C5: the second sample container has an interval, retries, a
start period and a timeout but no command, and its entry has no block. -/
theorem readConfig_healthCheck_witness :
    sampleReadFile "kangol.yml" = .ok "cluster: prod" ∧
    sampleUnmarshal "cluster: prod" = (sampleDeployment, none) ∧
    sampleDeployment.Task[1]? = some ("db", sampleDb) ∧
    sampleDb.HealthCheck.Interval = 10 ∧
    ∃ cs req e, ReadConfig sampleReadFile sampleUnmarshal "kangol.yml" []
        = some (cs, some req, none) ∧
      req.ContainerDefinitions[1]? = some (some e) ∧ e.Name = some "db" ∧
      e.HealthCheck = none := by
  refine ⟨rfl, rfl, rfl, rfl, ?_⟩
  obtain ⟨cs, req, e, h, he, hn, -, hnone⟩ :=
    readConfig_healthCheck sampleReadFile sampleUnmarshal "kangol.yml" []
      "cluster: prod" sampleDeployment none 1 "db" sampleDb rfl rfl rfl
  exact ⟨cs, req, e, h, he, hn, hnone rfl⟩

/-- C6. The output entry of the `i`-th visited container has a
log-configuration block exactly when the input log driver is not the empty
string, and a block that is present carries the input driver and the input
options mapping. -/
theorem readConfig_logConfiguration (ReadFile : String → Except String String)
    (Unmarshal : String → Deployment × Option String) (conf : String)
    (tags : List (String × String)) (data : String) (d : Deployment) (err : Option String)
    (i : Nat) (name : String) (c : ContainerDefinition)
    (hread : ReadFile conf = .ok data) (hdec : Unmarshal data = (d, err))
    (hi : d.Task[i]? = some (name, c)) :
    ∃ cs req e, ReadConfig ReadFile Unmarshal conf tags = some (cs, some req, err) ∧
      req.ContainerDefinitions[i]? = some (some e) ∧ e.Name = some name ∧
      (e.LogConfiguration ≠ none ↔ c.LogConfiguration.LogDriver ≠ "") ∧
      ∀ l, e.LogConfiguration = some l →
        l.LogDriver = some c.LogConfiguration.LogDriver ∧
        l.Options = c.LogConfiguration.Options := by
  refine ⟨_, _, convert tags (name, c),
    ReadConfig_decoded ReadFile Unmarshal conf tags data d err hread hdec,
    entry_at tags d.Task i name c hi, rfl, ?_, ?_⟩
  · by_cases h : c.LogConfiguration.LogDriver = "" <;> simp [convert, h]
  · intro l hl
    by_cases h : c.LogConfiguration.LogDriver = ""
    · simp [convert, h] at hl
    · simp [convert, h] at hl
      subst hl
      exact ⟨rfl, rfl⟩

/-- Witness of C6: the first sample container has the driver `awslogs`. -/
theorem readConfig_logConfiguration_witness :
    sampleReadFile "kangol.yml" = .ok "cluster: prod" ∧
    sampleUnmarshal "cluster: prod" = (sampleDeployment, none) ∧
    sampleDeployment.Task[0]? = some ("web", sampleWeb) ∧
    ∃ cs req e, ReadConfig sampleReadFile sampleUnmarshal "kangol.yml" []
        = some (cs, some req, none) ∧
      req.ContainerDefinitions[0]? = some (some e) ∧ e.Name = some "web" ∧
      e.LogConfiguration
        = some { LogDriver := some "awslogs", Options := [("awslogs-group", some "web")] } := by
  refine ⟨rfl, rfl, rfl, ?_⟩
  obtain ⟨cs, req, e, h, he, hn, hiff, hl⟩ :=
    readConfig_logConfiguration sampleReadFile sampleUnmarshal "kangol.yml" []
      "cluster: prod" sampleDeployment none 0 "web" sampleWeb rfl rfl rfl
  refine ⟨cs, req, e, h, he, hn, ?_⟩
  have hne : e.LogConfiguration ≠ none := hiff.2 (by decide)
  cases hlc : e.LogConfiguration with
  | none => exact absurd hlc hne
  | some l =>
    obtain ⟨h1, h2⟩ := hl l hlc
    cases l
    simp_all [sampleWeb]

/-! ## Volumes -/

theorem lastVolumes_of_ne_nil (init : List (Option ecs.Volume))
    (task : List (String × ContainerDefinition)) (hne : task ≠ []) :
    lastVolumes init task = convertVolumes (task.getLast hne).2 := by
  simp [lastVolumes, List.getLast?_eq_getLast _ hne]

theorem flatten_map_split {α β : Type} (f : α → List β) (l : List α) (hne : l ≠ []) :
    (l.map f).flatten = (l.dropLast.map f).flatten ++ f (l.getLast hne) := by
  conv_lhs => rw [← List.dropLast_append_getLast hne]
  simp

/-- C7. With at least one container in the task map, whatever the order in
which the map is visited, the volumes of the request are the translated volumes
(names and host source paths, in order) of the container visited last. With no
volumes in that container the output list is empty, and as soon as another
container declares a volume the output differs from the concatenation of the
volume lists of all containers. -/
theorem readConfig_volumes_last_wins (ReadFile : String → Except String String)
    (Unmarshal : String → Deployment × Option String) (conf : String)
    (tags : List (String × String)) (data : String) (d : Deployment) (err : Option String)
    (hread : ReadFile conf = .ok data) (hdec : Unmarshal data = (d, err))
    (hne : d.Task ≠ []) :
    ∃ cs req, ReadConfig ReadFile Unmarshal conf tags = some (cs, some req, err) ∧
      req.Volumes = (d.Task.getLast hne).2.Volumes.map (fun v =>
        some { Host := some { SourcePath := some v.Host.SourcePath }, Name := some v.Name }) ∧
      ((d.Task.getLast hne).2.Volumes = [] → req.Volumes = []) ∧
      ((∃ e ∈ d.Task.dropLast, e.2.Volumes ≠ []) →
        req.Volumes ≠ (d.Task.map fun e => getVolumes e.2).flatten) := by
  refine ⟨_, _, ReadConfig_decoded ReadFile Unmarshal conf tags data d err hread hdec,
    ?_, ?_, ?_⟩
  · show lastVolumes [] d.Task = _
    rw [lastVolumes_of_ne_nil _ _ hne]
    rfl
  · intro h
    show lastVolumes [] d.Task = _
    rw [lastVolumes_of_ne_nil _ _ hne]
    simp [convertVolumes, h]
  · rintro ⟨e, he, hvol⟩
    show lastVolumes [] d.Task ≠ _
    rw [lastVolumes_of_ne_nil _ _ hne]
    intro heq
    rw [flatten_map_split _ _ hne, getVolumes_eq (d.Task.getLast hne).2] at heq
    have hlen := congrArg List.length heq
    simp only [List.length_append] at hlen
    have hnil : (d.Task.dropLast.map fun e => getVolumes e.2).flatten = [] :=
      List.length_eq_zero.1 (by omega)
    have hE := List.flatten_eq_nil_iff.1 hnil (getVolumes e.2) (List.mem_map.2 ⟨e, he, rfl⟩)
    rw [getVolumes_eq] at hE
    exact hvol (by simpa [convertVolumes] using hE)

/-- Witness of C7: the sample visits `web`, which declares the volume `data`,
and then `db`, which declares none; the request has no volume. -/
theorem readConfig_volumes_last_wins_witness :
    sampleReadFile "kangol.yml" = .ok "cluster: prod" ∧
    sampleUnmarshal "cluster: prod" = (sampleDeployment, none) ∧
    sampleDeployment.Task ≠ [] ∧
    ∃ cs req, ReadConfig sampleReadFile sampleUnmarshal "kangol.yml" []
        = some (cs, some req, none) ∧
      req.Volumes = [] ∧
      req.Volumes ≠ (sampleDeployment.Task.map fun e => getVolumes e.2).flatten := by
  have hne : sampleDeployment.Task ≠ [] := by simp [sampleDeployment]
  refine ⟨rfl, rfl, hne, ?_⟩
  obtain ⟨cs, req, h, -, hempty, hconcat⟩ :=
    readConfig_volumes_last_wins sampleReadFile sampleUnmarshal "kangol.yml" []
      "cluster: prod" sampleDeployment none rfl rfl hne
  exact ⟨cs, req, h, hempty rfl,
    hconcat ⟨("web", sampleWeb), by simp [sampleDeployment], by simp [sampleWeb]⟩⟩

/-! ## Family, network mode, service target and lists -/

/-- C8. The family of the request is the name of the descriptor, and the
network mode of the request is set exactly when the network mode of the
descriptor is not the empty string, to that string. -/
theorem readConfig_family_networkMode (ReadFile : String → Except String String)
    (Unmarshal : String → Deployment × Option String) (conf : String)
    (tags : List (String × String)) (data : String) (d : Deployment) (err : Option String)
    (hread : ReadFile conf = .ok data) (hdec : Unmarshal data = (d, err)) :
    ∃ cs req, ReadConfig ReadFile Unmarshal conf tags = some (cs, some req, err) ∧
      req.Family = some d.Name ∧
      (req.NetworkMode ≠ none ↔ d.NetworkMode ≠ "") ∧
      (d.NetworkMode ≠ "" → req.NetworkMode = some d.NetworkMode) := by
  refine ⟨_, _, ReadConfig_decoded ReadFile Unmarshal conf tags data d err hread hdec,
    rfl, ?_, ?_⟩
  · by_cases h : d.NetworkMode = "" <;> simp [h]
  · intro h
    simp [h]

/-- Witness of C8 on the sample descriptor. -/
theorem readConfig_family_networkMode_witness :
    sampleReadFile "kangol.yml" = .ok "cluster: prod" ∧
    sampleUnmarshal "cluster: prod" = (sampleDeployment, none) ∧
    ∃ cs req, ReadConfig sampleReadFile sampleUnmarshal "kangol.yml" []
        = some (cs, some req, none) ∧
      req.Family = some "api-task" ∧ req.NetworkMode = some "bridge" := by
  refine ⟨rfl, rfl, ?_⟩
  obtain ⟨cs, req, h, hf, -, hn⟩ :=
    readConfig_family_networkMode sampleReadFile sampleUnmarshal "kangol.yml" []
      "cluster: prod" sampleDeployment none rfl rfl
  exact ⟨cs, req, h, hf, hn (by decide)⟩

/-- C9. The `ClusterService` returned is the cluster, the service and the
count of the descriptor; any other decoder and tag map on the same file that
give the same three fields give the same `ClusterService`, whatever the task
map, the tags, the family name and the network mode are. -/
theorem readConfig_clusterService (ReadFile : String → Except String String)
    (Unmarshal : String → Deployment × Option String) (conf : String)
    (tags : List (String × String)) (data : String) (d : Deployment) (err : Option String)
    (hread : ReadFile conf = .ok data) (hdec : Unmarshal data = (d, err)) :
    (∃ req, ReadConfig ReadFile Unmarshal conf tags
        = some ({ Cluster := d.Cluster, Service := d.Service, Count := d.Count },
            some req, err)) ∧
    ∀ (Unmarshal2 : String → Deployment × Option String) (tags2 : List (String × String))
      (task2 : List (String × ContainerDefinition)) (name2 mode2 : String),
      Unmarshal2 data = ({ d with Task := task2, Name := name2, NetworkMode := mode2 }, err) →
      ∃ req2, ReadConfig ReadFile Unmarshal2 conf tags2
        = some ({ Cluster := d.Cluster, Service := d.Service, Count := d.Count },
            some req2, err) := by
  refine ⟨⟨_, ReadConfig_decoded ReadFile Unmarshal conf tags data d err hread hdec⟩, ?_⟩
  intro Unmarshal2 tags2 task2 name2 mode2 hdec2
  exact ⟨_, ReadConfig_decoded ReadFile Unmarshal2 conf tags2 data
    { d with Task := task2, Name := name2, NetworkMode := mode2 } err hread hdec2⟩

/-- Witness of C9 on the sample descriptor. -/
theorem readConfig_clusterService_witness :
    sampleReadFile "kangol.yml" = .ok "cluster: prod" ∧
    sampleUnmarshal "cluster: prod" = (sampleDeployment, none) ∧
    ∃ req, ReadConfig sampleReadFile sampleUnmarshal "kangol.yml" [("web", "new")]
      = some ({ Cluster := "prod", Service := "api", Count := 3 }, some req, none) :=
  ⟨rfl, rfl,
    (readConfig_clusterService sampleReadFile sampleUnmarshal "kangol.yml" [("web", "new")]
      "cluster: prod" sampleDeployment none rfl rfl).1⟩

/-- C10. In the output entry of the `i`-th visited container every list is
the input list translated element by element, so it has the length of the
input list and its `j`-th element carries the fields of the `j`-th input
element; the docker labels are the input mapping. -/
theorem readConfig_lists (ReadFile : String → Except String String)
    (Unmarshal : String → Deployment × Option String) (conf : String)
    (tags : List (String × String)) (data : String) (d : Deployment) (err : Option String)
    (i : Nat) (name : String) (c : ContainerDefinition)
    (hread : ReadFile conf = .ok data) (hdec : Unmarshal data = (d, err))
    (hi : d.Task[i]? = some (name, c)) :
    ∃ cs req e, ReadConfig ReadFile Unmarshal conf tags = some (cs, some req, err) ∧
      req.ContainerDefinitions[i]? = some (some e) ∧ e.Name = some name ∧
      e.PortMappings = c.PortMappings.map (fun v =>
        some { ContainerPort := some v.ContainerPort, HostPort := some v.HostPort,
               Protocol := some v.Protocol }) ∧
      e.Command = c.Command.map some ∧
      e.EntryPoint = c.EntryPoint.map some ∧
      e.Environment = c.Environment.map (fun v =>
        some { Name := some v.Name, Value := some v.Value }) ∧
      e.Links = c.Link.map some ∧
      e.MountPoints = c.MountPoints.map (fun v =>
        some { ContainerPath := some v.ContainerPath, ReadOnly := some v.ReadOnly,
               SourceVolume := some v.SourceVolume }) ∧
      e.VolumesFrom = c.VolumesFrom.map (fun v =>
        some { ReadOnly := some v.ReadOnly, SourceContainer := some v.SourceContainer }) ∧
      e.DockerLabels = c.DockerLabels :=
  ⟨_, _, convert tags (name, c),
    ReadConfig_decoded ReadFile Unmarshal conf tags data d err hread hdec,
    entry_at tags d.Task i name c hi, rfl, rfl, rfl, rfl, rfl, rfl, rfl, rfl, rfl⟩

/-- Witness of C10: the lists of the first sample container. -/
theorem readConfig_lists_witness :
    sampleReadFile "kangol.yml" = .ok "cluster: prod" ∧
    sampleUnmarshal "cluster: prod" = (sampleDeployment, none) ∧
    sampleDeployment.Task[0]? = some ("web", sampleWeb) ∧
    ∃ cs req e, ReadConfig sampleReadFile sampleUnmarshal "kangol.yml" [("web", "new")]
        = some (cs, some req, none) ∧
      req.ContainerDefinitions[0]? = some (some e) ∧
      e.PortMappings
        = [some { ContainerPort := some 80, HostPort := some 8080, Protocol := some "tcp" }] ∧
      e.Command = [some "serve", some "--port=80"] ∧
      e.Environment = [some { Name := some "STAGE", Value := some "prod" },
                       some { Name := some "DEBUG", Value := some "" }] ∧
      e.DockerLabels = [("team", some "infra")] := by
  refine ⟨rfl, rfl, rfl, ?_⟩
  obtain ⟨cs, req, e, h, he, -, hp, hc, -, hv, -, -, -, hl⟩ :=
    readConfig_lists sampleReadFile sampleUnmarshal "kangol.yml" [("web", "new")]
      "cluster: prod" sampleDeployment none 0 "web" sampleWeb rfl rfl rfl
  exact ⟨cs, req, e, h, he, hp, hc, hv, hl⟩

/-! ## Read failure, decode failure and fixed scenarios -/

/-- C11. When the file cannot be read, `ReadConfig` returns the read error
with the zero `ClusterService` and a nil request, and the result is the same
for every decoder and every tag map: the decoder is not consulted. -/
theorem readConfig_read_failure (ReadFile : String → Except String String)
    (Unmarshal : String → Deployment × Option String) (conf : String)
    (tags : List (String × String)) (readErr : String)
    (hread : ReadFile conf = .error readErr) :
    ReadConfig ReadFile Unmarshal conf tags
      = some ({ Cluster := "", Service := "", Count := 0 }, none, some readErr) ∧
    ∀ (Unmarshal2 : String → Deployment × Option String) (tags2 : List (String × String)),
      ReadConfig ReadFile Unmarshal2 conf tags2 = ReadConfig ReadFile Unmarshal conf tags := by
  have h : ∀ (U : String → Deployment × Option String) (t : List (String × String)),
      ReadConfig ReadFile U conf t
        = some ({ Cluster := "", Service := "", Count := 0 }, none, some readErr) := by
    intro U t
    unfold ReadConfig
    rw [hread]
  exact ⟨h Unmarshal tags, fun U t => by rw [h U t, h Unmarshal tags]⟩

/-- Witness of C11: a path that the sample file system does not hold. -/
theorem readConfig_read_failure_witness :
    sampleReadFile "missing.yml" = .error "open: no such file or directory" ∧
    ReadConfig sampleReadFile sampleUnmarshal "missing.yml" [("web", "new")]
      = some ({ Cluster := "", Service := "", Count := 0 }, none,
          some "open: no such file or directory") :=
  ⟨rfl,
    (readConfig_read_failure sampleReadFile sampleUnmarshal "missing.yml" [("web", "new")]
      "open: no such file or directory" rfl).1⟩

/-- C12. When the file is read, `ReadConfig` returns a request that is not
nil together with exactly the error of the decoder, and the `ClusterService`
and the request are the translation of the descriptor the decoder left behind:
they are what a decoder that succeeds with the same descriptor gives. -/
theorem readConfig_decode_error_passed_on (ReadFile : String → Except String String)
    (Unmarshal : String → Deployment × Option String) (conf : String)
    (tags : List (String × String)) (data : String) (d : Deployment) (err : Option String)
    (hread : ReadFile conf = .ok data) (hdec : Unmarshal data = (d, err)) :
    ∃ cs req, ReadConfig ReadFile Unmarshal conf tags = some (cs, some req, err) ∧
      cs = { Cluster := d.Cluster, Service := d.Service, Count := d.Count } ∧
      req.ContainerDefinitions.length = d.Task.length ∧
      req.Family = some d.Name ∧
      ReadConfig ReadFile (fun _ => (d, none)) conf tags = some (cs, some req, none) :=
  ⟨_, _, ReadConfig_decoded ReadFile Unmarshal conf tags data d err hread hdec, rfl,
    by simp, rfl,
    ReadConfig_decoded ReadFile (fun _ => (d, none)) conf tags data d none hread rfl⟩

/-- Witness of C12: a decoder that fails with part of the descriptor filled
in; both containers are translated and the error comes back. -/
theorem readConfig_decode_error_passed_on_witness :
    sampleReadFile "kangol.yml" = .ok "cluster: prod" ∧
    ∃ req, ReadConfig sampleReadFile samplePartialUnmarshal "kangol.yml" []
        = some ({ Cluster := "prod", Service := "api", Count := 0 }, some req,
            some "yaml: unmarshal errors: cannot unmarshal !!str into int64") ∧
      req.ContainerDefinitions.length = 2 ∧ req.Family = some "api-task" := by
  refine ⟨rfl, ?_⟩
  obtain ⟨cs, req, h, hcs, hlen, hfam, -⟩ :=
    readConfig_decode_error_passed_on sampleReadFile samplePartialUnmarshal "kangol.yml" []
      "cluster: prod" _ _ rfl rfl
  subst hcs
  exact ⟨req, h, hlen, hfam⟩

/-- C13. The round-trip scenario: cluster `prod`, service `api`, count 3 and
the single container `web` with image `org/app:1.0`, cpu 256, memory 512,
essential, without health-check command and without log driver, translated
with an empty tag map, gives `ClusterService{prod, api, 3}` and a request with
exactly one container entry, named `web`, with that image, cpu, memory and
flag, without health-check block and without log-configuration block. -/
theorem readConfig_round_trip (ReadFile : String → Except String String)
    (Unmarshal : String → Deployment × Option String) (conf : String)
    (data : String) (d : Deployment) (err : Option String) (c : ContainerDefinition)
    (hread : ReadFile conf = .ok data) (hdec : Unmarshal data = (d, err))
    (hcluster : d.Cluster = "prod") (hservice : d.Service = "api") (hcount : d.Count = 3)
    (htask : d.Task = [("web", c)])
    (himage : c.Image = "org/app:1.0") (hcpu : c.CPU = 256) (hmemory : c.Memory = 512)
    (hessential : c.Essential = true)
    (hhealth : c.HealthCheck.Command = []) (hlog : c.LogConfiguration.LogDriver = "") :
    ∃ req e, ReadConfig ReadFile Unmarshal conf []
        = some ({ Cluster := "prod", Service := "api", Count := 3 }, some req, err) ∧
      req.ContainerDefinitions = [some e] ∧
      e.Name = some "web" ∧ e.Image = some "org/app:1.0" ∧ e.Cpu = some 256 ∧
      e.Memory = some 512 ∧ e.Essential = some true ∧
      e.HealthCheck = none ∧ e.LogConfiguration = none := by
  have h := ReadConfig_decoded ReadFile Unmarshal conf [] data d err hread hdec
  rw [hcluster, hservice, hcount, htask] at h
  refine ⟨_, convert [] ("web", c), h, rfl, rfl, ?_, ?_, ?_, ?_, ?_, ?_⟩
  · simp [convert, overrideImage, mapIndex, himage]
  · simp [convert, hcpu]
  · simp [convert, hmemory]
  · simp [convert, hessential]
  · simp [convert, hhealth]
  · simp [convert, hlog]

/-- Witness of C13 on the round-trip descriptor with zero values elsewhere. -/
theorem readConfig_round_trip_witness :
    sampleReadFile "kangol.yml" = .ok "cluster: prod" ∧
    roundTripUnmarshal "cluster: prod" = (roundTripDeployment, none) ∧
    roundTripDeployment.Task = [("web", roundTripWeb)] ∧
    ∃ req e, ReadConfig sampleReadFile roundTripUnmarshal "kangol.yml" []
        = some ({ Cluster := "prod", Service := "api", Count := 3 }, some req, none) ∧
      req.ContainerDefinitions = [some e] ∧
      e.Name = some "web" ∧ e.Image = some "org/app:1.0" ∧ e.Cpu = some 256 ∧
      e.Memory = some 512 ∧ e.Essential = some true ∧
      e.HealthCheck = none ∧ e.LogConfiguration = none :=
  ⟨rfl, rfl, rfl,
    readConfig_round_trip sampleReadFile roundTripUnmarshal "kangol.yml" "cluster: prod"
      roundTripDeployment none roundTripWeb rfl rfl rfl rfl rfl rfl rfl rfl rfl rfl rfl rfl⟩

/-- C14. The zero descriptor, as left behind by a decoder that fails at once,
is translated to the zero `ClusterService` and to a request without
containers, without volumes, with the empty string as family and without
network mode, whatever the tags are; the error of the decoder comes with it. -/
theorem readConfig_zero_descriptor (ReadFile : String → Except String String)
    (Unmarshal : String → Deployment × Option String) (conf : String)
    (tags : List (String × String)) (data : String) (err : Option String)
    (hread : ReadFile conf = .ok data) (hdec : Unmarshal data = (Deployment.zero, err)) :
    ReadConfig ReadFile Unmarshal conf tags
      = some ({ Cluster := "", Service := "", Count := 0 },
          some { ContainerDefinitions := [], Family := some "", Volumes := [],
                 NetworkMode := none },
          err) := by
  rw [ReadConfig_decoded ReadFile Unmarshal conf tags data Deployment.zero err hread hdec]
  rfl

/-- Witness of C14: the sample decoder that fails. -/
theorem readConfig_zero_descriptor_witness :
    sampleReadFile "kangol.yml" = .ok "cluster: prod" ∧
    sampleFailingUnmarshal "cluster: prod"
      = (Deployment.zero, some "yaml: did not find expected key") ∧
    ReadConfig sampleReadFile sampleFailingUnmarshal "kangol.yml" [("web", "new")]
      = some ({ Cluster := "", Service := "", Count := 0 },
          some { ContainerDefinitions := [], Family := some "", Volumes := [],
                 NetworkMode := none },
          some "yaml: did not find expected key") :=
  ⟨rfl, rfl,
    readConfig_zero_descriptor sampleReadFile sampleFailingUnmarshal "kangol.yml"
      [("web", "new")] "cluster: prod" _ rfl rfl⟩

/-- C15. For every image and every tag the split of the image at the colons
has at least one piece, the index of the last piece is in range, and
`addImageTag` returns a string: it never fails. -/
theorem addImageTag_total (image tag : String) :
    1 ≤ (strings.Split image ':').length ∧
    (strings.Split image ':').length - 1 < (strings.Split image ':').length ∧
    ∃ r, addImageTag image tag = some r := by
  have hne := splitChars_ne_nil ':' image.data
  have hpos : 1 ≤ (strings.Split image ':').length := by
    unfold strings.Split
    rw [List.length_map]
    exact List.length_pos.2 hne
  exact ⟨hpos, by omega, _, addImageTag_eq image tag⟩

/-! ## Iteration order, frame of an override and names -/

theorem mapIndex_congr {tags1 tags2 : List (String × String)} {m : String}
    (h : tags1.lookup m = tags2.lookup m) : mapIndex tags1 m = mapIndex tags2 m := by
  simp [mapIndex, h]

/-- The tags act on an output entry through the tag stored for its name only. -/
theorem convert_congr {tags1 tags2 : List (String × String)} (e : String × ContainerDefinition)
    (h : mapIndex tags1 e.1 = mapIndex tags2 e.1) : convert tags1 e = convert tags2 e := by
  simp [convert, overrideImage, h]

/-- C16. Two visiting orders of the same task map give the same
`ClusterService`, the same error, the same family and the same network mode,
and container lists that are permutations of each other; the request has no
other field than the container list and the volumes. -/
theorem readConfig_iteration_order (ReadFile : String → Except String String)
    (Unmarshal1 Unmarshal2 : String → Deployment × Option String) (conf : String)
    (tags : List (String × String)) (data : String) (d : Deployment) (err : Option String)
    (task2 : List (String × ContainerDefinition))
    (hread : ReadFile conf = .ok data) (hdec1 : Unmarshal1 data = (d, err))
    (hdec2 : Unmarshal2 data = ({ d with Task := task2 }, err))
    (hperm : List.Perm task2 d.Task) :
    ∃ cs req1 req2,
      ReadConfig ReadFile Unmarshal1 conf tags = some (cs, some req1, err) ∧
      ReadConfig ReadFile Unmarshal2 conf tags = some (cs, some req2, err) ∧
      List.Perm req2.ContainerDefinitions req1.ContainerDefinitions ∧
      req2.Family = req1.Family ∧ req2.NetworkMode = req1.NetworkMode ∧
      req2 = { req1 with ContainerDefinitions := req2.ContainerDefinitions,
                         Volumes := req2.Volumes } :=
  ⟨_, _, _, ReadConfig_decoded ReadFile Unmarshal1 conf tags data d err hread hdec1,
    ReadConfig_decoded ReadFile Unmarshal2 conf tags data { d with Task := task2 } err
      hread hdec2,
    hperm.map _, rfl, rfl, rfl⟩

/-- Witness of C16: the sample visited as `web`, `db` and as `db`, `web`; the
two container lists are permutations of each other, and they and the volumes
do differ. -/
theorem readConfig_iteration_order_witness :
    sampleReadFile "kangol.yml" = .ok "cluster: prod" ∧
    List.Perm sampleDeploymentSwapped.Task sampleDeployment.Task ∧
    ∃ cs req1 req2,
      ReadConfig sampleReadFile sampleUnmarshal "kangol.yml" [] = some (cs, some req1, none) ∧
      ReadConfig sampleReadFile sampleUnmarshalSwapped "kangol.yml" []
        = some (cs, some req2, none) ∧
      List.Perm req2.ContainerDefinitions req1.ContainerDefinitions ∧
      req2.Family = req1.Family ∧ req2.NetworkMode = req1.NetworkMode ∧
      req2.ContainerDefinitions ≠ req1.ContainerDefinitions ∧
      req2.Volumes ≠ req1.Volumes := by
  have hperm : List.Perm sampleDeploymentSwapped.Task sampleDeployment.Task :=
    List.Perm.swap _ _ _
  refine ⟨rfl, hperm, ?_⟩
  obtain ⟨cs, req1, req2, h1, h2, hp, hf, hn, -⟩ :=
    readConfig_iteration_order sampleReadFile sampleUnmarshal sampleUnmarshalSwapped
      "kangol.yml" [] "cluster: prod" sampleDeployment none sampleDeploymentSwapped.Task
      rfl rfl rfl hperm
  refine ⟨cs, req1, req2, h1, h2, hp, hf, hn, ?_, ?_⟩
  · have e1 := ReadConfig_decoded sampleReadFile sampleUnmarshal "kangol.yml" []
      "cluster: prod" sampleDeployment none rfl rfl
    have e2 := ReadConfig_decoded sampleReadFile sampleUnmarshalSwapped "kangol.yml" []
      "cluster: prod" sampleDeploymentSwapped none rfl rfl
    rw [h1] at e1
    rw [h2] at e2
    simp only [Option.some.injEq, Prod.mk.injEq] at e1 e2
    rw [e1.2.1, e2.2.1]
    decide
  · have e1 := ReadConfig_decoded sampleReadFile sampleUnmarshal "kangol.yml" []
      "cluster: prod" sampleDeployment none rfl rfl
    have e2 := ReadConfig_decoded sampleReadFile sampleUnmarshalSwapped "kangol.yml" []
      "cluster: prod" sampleDeploymentSwapped none rfl rfl
    rw [h1] at e1
    rw [h2] at e2
    simp only [Option.some.injEq, Prod.mk.injEq] at e1 e2
    rw [e1.2.1, e2.2.1]
    decide

/-- C17. Two tag maps that agree on every name other than `n` give outputs
that agree on the `ClusterService`, the error, the family, the network mode
and the volumes; the container lists correspond entry by entry, an entry whose
name is not `n` is the same in both, and the entry named `n` is the same in
both apart from its image. When `n` is not a key of the task map the two
requests are equal. -/
theorem readConfig_override_frame (ReadFile : String → Except String String)
    (Unmarshal : String → Deployment × Option String) (conf : String)
    (tags1 tags2 : List (String × String)) (data : String) (d : Deployment)
    (err : Option String) (n : String)
    (hread : ReadFile conf = .ok data) (hdec : Unmarshal data = (d, err))
    (hagree : ∀ m, m ≠ n → tags1.lookup m = tags2.lookup m) :
    ∃ cs req1 req2,
      ReadConfig ReadFile Unmarshal conf tags1 = some (cs, some req1, err) ∧
      ReadConfig ReadFile Unmarshal conf tags2 = some (cs, some req2, err) ∧
      req1.Family = req2.Family ∧ req1.NetworkMode = req2.NetworkMode ∧
      req1.Volumes = req2.Volumes ∧
      List.Forall₂
        (fun x1 x2 => ∃ e1 e2, x1 = some e1 ∧ x2 = some e2 ∧
          (e1.Name ≠ some n → e1 = e2) ∧ { e1 with Image := e2.Image } = e2)
        req1.ContainerDefinitions req2.ContainerDefinitions ∧
      (n ∉ d.Task.map Prod.fst → req1 = req2) := by
  refine ⟨_, _, _, ReadConfig_decoded ReadFile Unmarshal conf tags1 data d err hread hdec,
    ReadConfig_decoded ReadFile Unmarshal conf tags2 data d err hread hdec,
    rfl, rfl, rfl, ?_, ?_⟩
  · rw [List.forall₂_map_left_iff, List.forall₂_map_right_iff, List.forall₂_same]
    intro e _
    refine ⟨_, _, rfl, rfl, ?_, rfl⟩
    intro hname
    apply convert_congr
    apply mapIndex_congr
    apply hagree
    intro heq
    exact hname (by simp [convert, heq])
  · intro hn
    have hmap : (d.Task.map fun e => some (convert tags1 e))
        = d.Task.map fun e => some (convert tags2 e) := by
      apply List.map_congr_left
      intro e he
      have hne : e.1 ≠ n := by
        intro heq
        exact hn (List.mem_map.2 ⟨e, he, heq⟩)
      rw [convert_congr e (mapIndex_congr (hagree e.1 hne))]
    simp only [hmap]

/-- Witness of C17: the sample with and without the override `web -> new`. -/
theorem readConfig_override_frame_witness :
    sampleReadFile "kangol.yml" = .ok "cluster: prod" ∧
    (∀ m, m ≠ "web" → List.lookup m [("web", "new")] = List.lookup m []) ∧
    ∃ cs req1 req2,
      ReadConfig sampleReadFile sampleUnmarshal "kangol.yml" [("web", "new")]
        = some (cs, some req1, none) ∧
      ReadConfig sampleReadFile sampleUnmarshal "kangol.yml" [] = some (cs, some req2, none) ∧
      req1.Volumes = req2.Volumes ∧
      req1.ContainerDefinitions.length = req2.ContainerDefinitions.length := by
  have hagree : ∀ m, m ≠ "web" → List.lookup m [("web", "new")] = List.lookup m [] := by
    intro m hm
    have hb : (m == "web") = false := by simpa using hm
    simp [List.lookup, hb]
  refine ⟨rfl, hagree, ?_⟩
  obtain ⟨cs, req1, req2, h1, h2, -, -, hv, hall, -⟩ :=
    readConfig_override_frame sampleReadFile sampleUnmarshal "kangol.yml" [("web", "new")] []
      "cluster: prod" sampleDeployment none "web" rfl rfl hagree
  exact ⟨cs, req1, req2, h1, h2, hv, hall.length_eq⟩

/-- C18. The names of the output entries, in order, are the keys of the task
map in visiting order, every entry is present with a name, and, the keys of a
map being pairwise distinct, so are the names. -/
theorem readConfig_names (ReadFile : String → Except String String)
    (Unmarshal : String → Deployment × Option String) (conf : String)
    (tags : List (String × String)) (data : String) (d : Deployment) (err : Option String)
    (hread : ReadFile conf = .ok data) (hdec : Unmarshal data = (d, err))
    (hkeys : (d.Task.map Prod.fst).Nodup) :
    ∃ cs req, ReadConfig ReadFile Unmarshal conf tags = some (cs, some req, err) ∧
      req.ContainerDefinitions.map (fun x => x.bind fun e => e.Name)
        = d.Task.map (fun e => some e.1) ∧
      (req.ContainerDefinitions.map fun x => x.bind fun e => e.Name).Nodup ∧
      ∀ name, (∃ e, some e ∈ req.ContainerDefinitions ∧ e.Name = some name)
        ↔ name ∈ d.Task.map Prod.fst := by
  have hnames : (d.Task.map fun e => some (convert tags e)).map
      (fun x => x.bind fun e => e.Name) = d.Task.map (fun e => some e.1) := by
    simp [List.map_map, Function.comp_def, convert]
  refine ⟨_, _, ReadConfig_decoded ReadFile Unmarshal conf tags data d err hread hdec,
    hnames, ?_, ?_⟩
  · show ((d.Task.map fun e => some (convert tags e)).map _).Nodup
    rw [hnames]
    have h2 : d.Task.map (fun e => some e.1) = (d.Task.map Prod.fst).map some := by
      simp [List.map_map, Function.comp_def]
    rw [h2]
    exact hkeys.map (Option.some_injective _)
  · intro name
    constructor
    · rintro ⟨e, he, hname⟩
      obtain ⟨x, hx, hxe⟩ := List.mem_map.1 he
      have : e = convert tags x := (Option.some.inj hxe).symm
      subst this
      have hx1 : x.1 = name := by simpa [convert] using hname
      exact List.mem_map.2 ⟨x, hx, hx1⟩
    · intro hmem
      obtain ⟨x, hx, hx1⟩ := List.mem_map.1 hmem
      exact ⟨convert tags x, List.mem_map.2 ⟨x, hx, rfl⟩, by simp [convert, hx1]⟩

/-- Witness of C18 on the sample descriptor. -/
theorem readConfig_names_witness :
    sampleReadFile "kangol.yml" = .ok "cluster: prod" ∧
    (sampleDeployment.Task.map Prod.fst).Nodup ∧
    ∃ cs req, ReadConfig sampleReadFile sampleUnmarshal "kangol.yml" []
        = some (cs, some req, none) ∧
      req.ContainerDefinitions.map (fun x => x.bind fun e => e.Name)
        = [some "web", some "db"] := by
  have hkeys : (sampleDeployment.Task.map Prod.fst).Nodup := by decide
  refine ⟨rfl, hkeys, ?_⟩
  obtain ⟨cs, req, h, hn, -, -⟩ :=
    readConfig_names sampleReadFile sampleUnmarshal "kangol.yml" []
      "cluster: prod" sampleDeployment none rfl rfl hkeys
  exact ⟨cs, req, h, hn⟩

/-! ## Idempotence of `addImageTag` -/

theorem splitChars_pieces (sep : Char) (s : List Char) :
    ∀ p ∈ splitChars sep s, sep ∉ p := by
  induction s with
  | nil => simp [splitChars]
  | cons c cs ih =>
    by_cases hc : c = sep
    · intro p hp
      simp only [splitChars, hc, if_true, List.mem_cons] at hp
      rcases hp with rfl | hp
      · simp
      · exact ih p hp
    · cases hsp : splitChars sep cs with
      | nil => exact absurd hsp (splitChars_ne_nil sep cs)
      | cons a as =>
        rw [splitChars_cons_of_ne hc hsp]
        rw [hsp] at ih
        intro p hp
        rcases List.mem_cons.1 hp with rfl | hp
        · have ha := ih a (by simp)
          intro hmem
          rcases List.mem_cons.1 hmem with h | h
          · exact hc h.symm
          · exact ha h
        · exact ih p (by simp [hp])

theorem splitChars_joinChars (sep : Char) (ls : List (List Char)) (hne : ls ≠ [])
    (hfree : ∀ p ∈ ls, sep ∉ p) : splitChars sep (joinChars [sep] ls) = ls := by
  induction ls with
  | nil => exact absurd rfl hne
  | cons a as ih =>
    cases as with
    | nil => simpa [joinChars] using splitChars_of_not_mem sep a (hfree a (by simp))
    | cons b bs =>
      have hrest := ih (by simp) (fun p hp => hfree p (by simp [hp]))
      have hjoin : joinChars [sep] (a :: b :: bs) = a ++ sep :: joinChars [sep] (b :: bs) := by
        simp [joinChars]
      rw [hjoin, splitChars_append_sep, hrest, splitChars_of_not_mem sep a (hfree a (by simp))]
      rfl

theorem length_splitChars (sep : Char) (s : List Char) :
    (splitChars sep s).length = s.count sep + 1 := by
  induction s with
  | nil => simp [splitChars]
  | cons c cs ih =>
    by_cases hc : c = sep
    · simp [splitChars, hc, ih]
    · cases hsp : splitChars sep cs with
      | nil => exact absurd hsp (splitChars_ne_nil sep cs)
      | cons a as =>
        rw [splitChars_cons_of_ne hc hsp]
        rw [hsp] at ih
        have hcount : (c :: cs).count sep = cs.count sep := by
          rw [List.count_cons]
          have : (c == sep) = false := by simpa using hc
          simp [this]
        rw [hcount, ← ih]
        rfl

/-- C19. With a tag without colon `addImageTag` is idempotent and keeps the
number of colons of the image; with a tag that holds a colon a second
application can change the result of the first. -/
theorem addImageTag_idempotent (image t : String) (ht : ':' ∉ t.data) :
    (∃ r, addImageTag image t = some r ∧ addImageTag r t = some r ∧
      r.data.count ':' = image.data.count ':') ∧
    ∃ image2 t2 r1 r2, ':' ∈ t2.data ∧ addImageTag image2 t2 = some r1 ∧
      addImageTag r1 t2 = some r2 ∧ r1 ≠ r2 := by
  constructor
  · have hne := splitChars_ne_nil ':' image.data
    have hfree : ∀ p ∈ (splitChars ':' image.data).dropLast ++ [t.data], ':' ∉ p := by
      intro p hp
      rcases List.mem_append.1 hp with h | h
      · exact splitChars_pieces ':' image.data p (List.mem_of_mem_dropLast h)
      · rw [List.mem_singleton.1 h]
        exact ht
    have hsplit := splitChars_joinChars ':'
      ((splitChars ':' image.data).dropLast ++ [t.data]) (by simp) hfree
    refine ⟨_, addImageTag_eq image t, ?_, ?_⟩
    · rw [addImageTag_eq]
      simp only [hsplit, List.dropLast_concat]
    · have h1 := length_splitChars ':'
        (joinChars [':'] ((splitChars ':' image.data).dropLast ++ [t.data]))
      rw [hsplit] at h1
      have h2 := length_splitChars ':' image.data
      have h3 : (splitChars ':' image.data).length ≠ 0 := by
        simpa [List.length_eq_zero] using hne
      simp only [List.length_append, List.length_dropLast, List.length_singleton] at h1
      show List.count ':' (joinChars [':'] ((splitChars ':' image.data).dropLast ++ [t.data]))
        = List.count ':' image.data
      omega
  · exact ⟨"a", "b:c", "b:c", "b:b:c", by decide, by decide, by decide, by decide⟩

/-- Witness of C19: `repo/image:old` with the tag `new`. -/
theorem addImageTag_idempotent_witness :
    ':' ∉ "new".data ∧
    ∃ r, addImageTag "repo/image:old" "new" = some r ∧ addImageTag r "new" = some r ∧
      r.data.count ':' = "repo/image:old".data.count ':' :=
  ⟨by decide, (addImageTag_idempotent "repo/image:old" "new" (by decide)).1⟩

end Kangol
